import Mathlib

/-!
Shallow embedding of the receipt extraction/classification pipeline
(`backend/app/receipt_processor.py`, `backend/app/email_parser.py`,
`backend/app/categorizer.py`).  Text is modelled as `List Char`, monetary
amounts as exact rationals (the Python code uses binary floats; every amount
in play is a decimal with two fraction digits, so the rational model is the
intended value semantics and "within rounding tolerance" becomes exactness).
Each Python regex is embedded as an explicit scanning function reproducing
`re.search` / `re.sub` semantics (leftmost match, greedy / lazy backtracking)
for that particular pattern.  `datetime.now()` fallbacks are modelled as
`none`; the `ZeroDivisionError` reachable in the e-mail item extractor is
modelled with `Except`.
-/

/-- ASCII whitespace, the characters Python `\s` matches on this data. -/
def isWs (c : Char) : Bool :=
  c = ' ' || c = '\t' || c = '\n' || c = '\r' || c = Char.ofNat 11 || c = Char.ofNat 12

/-- ASCII digit, Python `\d`. -/
def isDigitC (c : Char) : Bool := '0' ≤ c && c ≤ '9'

/-- ASCII letter. -/
def isAlphaC (c : Char) : Bool := ('a' ≤ c && c ≤ 'z') || ('A' ≤ c && c ≤ 'Z')

/-- Python `\w` on ASCII: letters, digits, underscore. -/
def isWordC (c : Char) : Bool := isAlphaC c || isDigitC c || c = '_'

/-- Lowercase an ASCII letter, `str.lower` per character. -/
def lowerC (c : Char) : Char :=
  if 'A' ≤ c && c ≤ 'Z' then Char.ofNat (c.toNat + 32) else c

/-- Uppercase an ASCII letter. -/
def upperC (c : Char) : Char :=
  if 'a' ≤ c && c ≤ 'z' then Char.ofNat (c.toNat - 32) else c

/-- `str.lower` over a character list. -/
def lowerS (s : List Char) : List Char := s.map lowerC

/-- Helper of `titleS`: the flag records whether the previous character was a
cased (alphabetic) character; `str.title` uppercases a letter after a
non-cased character and lowercases a letter after a cased one. -/
def titleAux : Bool → List Char → List Char
  | _, [] => []
  | prevAlpha, c :: rest =>
    (if isAlphaC c then (if prevAlpha then lowerC c else upperC c) else c)
      :: titleAux (isAlphaC c) rest

/-- Python `str.title`. -/
def titleS (s : List Char) : List Char := titleAux false s

/-- Python `str.strip` (both ends, whitespace). -/
def strip (s : List Char) : List Char :=
  ((s.dropWhile isWs).reverse.dropWhile isWs).reverse

/-- Helper of `splitLines`: accumulates the current line (reversed). -/
def splitLinesAux : List Char → List Char → List (List Char)
  | acc, [] => [acc.reverse]
  | acc, c :: rest =>
    if c = '\n' then acc.reverse :: splitLinesAux [] rest
    else splitLinesAux (c :: acc) rest

/-- Python `text.split('\n')`. -/
def splitLines (s : List Char) : List (List Char) := splitLinesAux [] s

/-- Substring test: Python `pat in s` for a literal pattern. -/
def containsSub (pat : List Char) : List Char → Bool
  | [] => pat.isEmpty
  | c :: rest => pat.isPrefixOf (c :: rest) || containsSub pat rest

/-- Numeric value of a digit run. -/
def digitsToNat (ds : List Char) : Nat :=
  ds.foldl (fun a c => a * 10 + (c.toNat - 48)) 0

/-- Value of a currency-shaped number `\d+\.\d{2}`: integer digits `ds`,
fraction digits `a`, `b`, as an exact rational. -/
def mkPrice (ds : List Char) (a b : Char) : ℚ :=
  ((digitsToNat ds * 100 + (a.toNat - 48) * 10 + (b.toNat - 48) : ℕ) : ℚ) / 100

/-- Parse `(\d+\.\d{2})` exactly at the start of `s`: greedy maximal digit
run, a dot, exactly two digits; returns the value and the remainder.  (The
regex engine cannot backtrack the `\d+` here: shrinking it puts a digit where
`\.` must match.) -/
def parseNum (s : List Char) : Option (ℚ × List Char) :=
  match s.takeWhile isDigitC, s.dropWhile isDigitC with
  | [], _ => none
  | ds, rest =>
    match rest with
    | '.' :: a :: b :: r2 =>
      if isDigitC a && isDigitC b then some (mkPrice ds a b, r2) else none
    | _ => none

/-- Consume one `'$'` if present: the regex `[\$]?` (consuming it can never
turn a successful continuation into a failure because `\s*`/`\d` never match
`'$'`). -/
def stripDollar (s : List Char) : List Char :=
  match s with
  | '$' :: r => r
  | _ => s

/-- Generic leftmost `re.search`: try the position matcher at every start
position, first success wins. -/
def searchOpt {α : Type} (here : List Char → Option α) : List Char → Option α
  | [] => none
  | c :: rest =>
    match here (c :: rest) with
    | some v => some v
    | none => searchOpt here rest

/-- Drop a literal if it is a prefix, Python regex literal text. -/
def stripLit (lit : String) (s : List Char) : Option (List Char) :=
  if lit.toList.isPrefixOf s then some (s.drop lit.toList.length) else none

/-- Regex `\s+`: at least one whitespace character, greedily consumed. -/
def wsPlus (s : List Char) : Option (List Char) :=
  match s with
  | c :: _ => if isWs c then some (s.dropWhile isWs) else none
  | [] => none

/-- One line-item record as built by both extractors (`category` is attached
later, by the persistence helper). -/
structure Item where
  name : String
  quantity : ℚ
  unit_price : ℚ
  total_price : ℚ
deriving DecidableEq

/-- An item together with the category attached by `save_receipt_to_db`. -/
structure CategorizedItem where
  name : String
  quantity : ℚ
  unit_price : ℚ
  total_price : ℚ
  category : String
deriving DecidableEq

/-! ## Categorizer (`categorizer.py`) -/

/-- One category rule of `ItemCategorizer.__init__`. -/
structure CategoryRule where
  name : String
  keywords : List String
  color : String
deriving DecidableEq

/-- The ordered category table of `ItemCategorizer.__init__` (dict insertion
order carries precedence). -/
def categories : List CategoryRule := [
  ⟨"Produce",
   ["apple", "banana", "orange", "grape", "berry", "strawberry",
    "lettuce", "tomato", "potato", "onion", "carrot", "broccoli",
    "spinach", "celery", "pepper", "avocado", "cucumber", "fruit",
    "vegetable", "salad", "melon", "peach", "pear", "plum", "mango",
    "pineapple", "kale", "cabbage", "squash", "zucchini", "corn"],
   "#4CAF50"⟩,
  ⟨"Meat & Seafood",
   ["chicken", "beef", "pork", "turkey", "fish", "salmon", "tuna",
    "shrimp", "meat", "steak", "ground", "bacon", "sausage", "ham",
    "lamb", "tilapia", "cod", "ribeye", "sirloin", "brisket"],
   "#F44336"⟩,
  ⟨"Dairy & Eggs",
   ["milk", "cheese", "yogurt", "butter", "cream", "egg",
    "sour cream", "cottage", "cheddar", "mozzarella", "parmesan",
    "ice cream", "whipped", "half and half", "dairy"],
   "#FFF9C4"⟩,
  ⟨"Bakery & Bread",
   ["bread", "bagel", "roll", "bun", "baguette", "croissant",
    "muffin", "donut", "cake", "cookie", "pastry", "tortilla",
    "wrap", "pita", "bakery"],
   "#D7CCC8"⟩,
  ⟨"Pantry & Canned",
   ["pasta", "rice", "bean", "sauce", "soup", "cereal", "oats",
    "flour", "sugar", "salt", "pepper", "spice", "oil", "vinegar",
    "can", "canned", "jar", "box", "bag", "chips", "crackers",
    "peanut butter", "jelly", "jam", "honey", "syrup"],
   "#FF9800"⟩,
  ⟨"Beverages",
   ["water", "juice", "soda", "coffee", "tea", "beer", "wine",
    "alcohol", "drink", "beverage", "lemonade", "cola", "sprite",
    "energy drink", "sports drink", "smoothie"],
   "#2196F3"⟩,
  ⟨"Frozen",
   ["frozen", "ice", "pizza", "freezer", "popsicle", "ice cream"],
   "#B3E5FC"⟩,
  ⟨"Snacks & Sweets",
   ["candy", "chocolate", "snack", "chip", "popcorn", "pretzel",
    "cracker", "granola", "bar", "gum", "mint", "cookie"],
   "#E91E63"⟩,
  ⟨"Condiments & Sauces",
   ["ketchup", "mustard", "mayo", "mayonnaise", "dressing",
    "salsa", "hot sauce", "bbq", "marinade", "soy sauce",
    "worcestershire", "relish", "pickle"],
   "#795548"⟩,
  ⟨"Other", [], "#9E9E9E"⟩]

/-- Whether the word boundary before a keyword occurrence holds, given the
preceding character (if any): Python `\b`. -/
def boundaryBefore : Option Char → Bool
  | none => true
  | some c => !isWordC c

/-- Whether the word boundary after a keyword occurrence holds. -/
def boundaryAfter : List Char → Bool
  | [] => true
  | c :: _ => !isWordC c

/-- Occurrence of `kw` exactly at the head of `s` with a closing `\b`. -/
def wordMatchAt (kw s : List Char) : Bool :=
  kw.isPrefixOf s && boundaryAfter (s.drop kw.length)

/-- Scan of `re.search(r'\b' + re.escape(kw) + r'\b', s)`: the first argument
of the recursion carries the previous character for the opening `\b`. -/
def wordSearch (kw : List Char) : Option Char → List Char → Bool
  | prev, [] => kw.isEmpty && boundaryBefore prev
  | prev, c :: rest =>
    (boundaryBefore prev && wordMatchAt kw (c :: rest)) || wordSearch kw (some c) rest

/-- Whole-word / whole-phrase occurrence of a keyword in a name. -/
def wordMatch (kw s : List Char) : Bool := wordSearch kw none s

/-- The category loop of `ItemCategorizer.categorize_item`: first category
(skipping `Other`) with any keyword matching as a whole word wins. -/
def categorizeAux : List CategoryRule → List Char → String
  | [], _ => "Other"
  | c :: rest, low =>
    if c.name = "Other" then categorizeAux rest low
    else if c.keywords.any (fun kw => wordMatch kw.toList low) then c.name
    else categorizeAux rest low

/-- `ItemCategorizer.categorize_item` (the `if not item_name` guard returns
`Other` on the empty string). -/
def ItemCategorizer_categorize_item (item_name : String) : String :=
  if item_name = "" then "Other"
  else categorizeAux categories (lowerS item_name.toList)

/-- Category attachment performed by `save_receipt_to_db`. -/
def categorizeItems (items : List Item) : List CategorizedItem :=
  items.map (fun i =>
    ⟨i.name, i.quantity, i.unit_price, i.total_price,
     ItemCategorizer_categorize_item i.name⟩)

/-! ## Scan-path processor (`receipt_processor.py`) -/

/-- Skip-list of `ReceiptProcessor._extract_items`. -/
def scanSkipList : List String :=
  ["total", "subtotal", "tax", "balance", "payment", "change", "visa",
   "mastercard", "cash", "credit", "debit", "***", "---", "thank you",
   "receipt", "store", "date"]

/-- Match of `quantity_pattern = (\d+)\s*@\s*[\$]?(\d+\.\d{2})` starting
exactly at the head of `s`: greedy digit runs are forced maximal (shrinking
either one puts a digit where `\s*@`, `\.` must match).  Returns the
quantity digits, the unit price and the remainder after the match. -/
def qtyMatchHere (s : List Char) : Option (List Char × ℚ × List Char) :=
  match s.takeWhile isDigitC, s.dropWhile isDigitC with
  | [], _ => none
  | qds, rest =>
    match rest.dropWhile isWs with
    | '@' :: r2 =>
      match parseNum (stripDollar (r2.dropWhile isWs)) with
      | some (p, after) => some (qds, p, after)
      | none => none
    | _ => none

/-- `re.search(quantity_pattern, line)`: leftmost match, first groups. -/
def qtySearch : List Char → Option (List Char × ℚ)
  | [] => none
  | c :: rest =>
    match qtyMatchHere (c :: rest) with
    | some (qds, p, _) => some (qds, p)
    | none => qtySearch rest

/-- Fuel-driven helper of `qtySubAll`; the fuel is an upper bound on the
number of scanning steps (each step either removes a whole match, which
consumes at least one character, or moves one character). -/
def qtySubAllAux : Nat → List Char → List Char
  | 0, s => s
  | _ + 1, [] => []
  | fuel + 1, c :: rest =>
    match qtyMatchHere (c :: rest) with
    | some (_, _, after) => qtySubAllAux fuel after
    | none => c :: qtySubAllAux fuel rest

/-- `re.sub(quantity_pattern, '', line)`: removes every (leftmost,
non-overlapping) match. -/
def qtySubAll (s : List Char) : List Char := qtySubAllAux s.length s

/-- Match of `price_pattern = [\$]?\s*(\d+\.\d{2})\s*$` starting exactly at
the head of `s` (the match necessarily extends to the end of the string). -/
def priceMatchHere (s : List Char) : Option ℚ :=
  match parseNum ((stripDollar s).dropWhile isWs) with
  | some (v, rest) => if rest.all isWs then some v else none
  | none => none

/-- Combined `re.search` + `re.sub` for `price_pattern`: at most one match
exists (it is anchored at the end), so the substitution keeps exactly the
prefix before the leftmost match.  Returns the price and that prefix. -/
def findTrailingPrice : List Char → Option (ℚ × List Char)
  | [] => none
  | c :: rest =>
    match priceMatchHere (c :: rest) with
    | some v => some (v, [])
    | none =>
      match findTrailingPrice rest with
      | some (v, pre) => some (v, c :: pre)
      | none => none

/-- `ReceiptProcessor._clean_item_name`: collapse whitespace, delete
characters outside `\w`, whitespace and hyphen, strip, title-case. -/
def collapseWsAux : Bool → List Char → List Char
  | _, [] => []
  | inWs, c :: rest =>
    if isWs c then
      if inWs then collapseWsAux true rest else ' ' :: collapseWsAux true rest
    else c :: collapseWsAux false rest

/-- `re.sub(r'\s+', ' ', name)`. -/
def collapseWs (s : List Char) : List Char := collapseWsAux false s

/-- `ReceiptProcessor._clean_item_name`. -/
def ReceiptProcessor_clean_item_name (name : List Char) : String :=
  (titleS (strip ((collapseWs name).filter (fun c => isWordC c || isWs c || c = '-')))).asString

/-- Body of the per-line loop of `ReceiptProcessor._extract_items`: `none`
when the line is skipped or matches no pattern. -/
def scanProcessLine (line : List Char) : Option Item :=
  if scanSkipList.any (fun sk => containsSub sk.toList (lowerS line)) then none
  else
    match qtySearch line with
    | some (qds, unit_price) =>
      let quantity : ℚ := (digitsToNat qds : ℕ)
      let total_price := quantity * unit_price
      let name := strip (qtySubAll line)
      if !name.isEmpty && name.length > 2 then
        some ⟨ReceiptProcessor_clean_item_name name, quantity, unit_price, total_price⟩
      else none
    | none =>
      match findTrailingPrice line with
      | some (price, pre) =>
        let name := strip pre
        if !name.isEmpty && name.length > 2 && price > 0 then
          some ⟨ReceiptProcessor_clean_item_name name, 1, price, price⟩
        else none
      | none => none

/-- `ReceiptProcessor._extract_items` over the pre-split lines. -/
def ReceiptProcessor_extract_items (lines : List (List Char)) : List Item :=
  lines.filterMap scanProcessLine

/-- The line splitting of `parse_receipt_text`:
`[line.strip() for line in text.split('\n') if line.strip()]`. -/
def parseLines (text : List Char) : List (List Char) :=
  ((splitLines text).map strip).filter (fun l => !l.isEmpty)

/-- Store-pattern table of `ReceiptProcessor.__init__`, in declaration order;
each regex is embedded as a matcher over the lowercased text. -/
def seqWsHere (a b : List Char) (s : List Char) : Bool :=
  a.isPrefixOf s && b.isPrefixOf ((s.drop a.length).dropWhile isWs)

/-- Search for `a\s*b` (e.g. `whole\s*foods`) anywhere in `s`. -/
def containsSeqWs (a b : List Char) : List Char → Bool
  | [] => false
  | c :: rest => seqWsHere a b (c :: rest) || containsSeqWs a b rest

def scanStorePatterns : List (String × (List Char → Bool)) := [
  ("walmart", fun low => containsSub "walmart".toList low || containsSub "wal-mart".toList low),
  ("kroger", containsSub "kroger".toList),
  ("target", containsSub "target".toList),
  ("costco", containsSub "costco".toList),
  ("whole foods", containsSeqWs "whole".toList "foods".toList),
  ("trader joe", containsSeqWs "trader".toList "joe".toList),
  ("safeway", containsSub "safeway".toList),
  ("publix", containsSub "publix".toList),
  ("albertsons", containsSub "albertsons".toList),
  ("aldi", containsSub "aldi".toList)]

/-- The shared store-identification loop: first pattern matching anywhere in
the lowercased text wins, title-cased; sentinel otherwise. -/
def findStoreName (pats : List (String × (List Char → Bool))) (low : List Char) : String :=
  match pats.find? (fun p => p.2 low) with
  | some p => (titleS p.1.toList).asString
  | none => "Unknown Store"

/-- `ReceiptProcessor._extract_store_name`. -/
def ReceiptProcessor_extract_store_name (text : String) : String :=
  findStoreName scanStorePatterns (lowerS text.toList)

/-- Totals: match of `(?:total|amount due|balance)[\s:]*[\$]?\s*(\d+\.\d{2})`
after one of the alternation literals, i.e. `[\s:]*[\$]?\s*(\d+\.\d{2})` at
the head of `s` (`sepPlus` selects the `[\s:]+` variant of the e-mail
patterns). -/
def numAfterSep (sepPlus : Bool) (s : List Char) : Option ℚ :=
  if sepPlus && !(match s with | c :: _ => isWs c || c = ':' | [] => false) then none
  else
    let r1 := s.dropWhile (fun c => isWs c || c = ':')
    (parseNum ((stripDollar r1).dropWhile isWs)).map (fun v => v.1)

/-- Scan-path total pattern at one position: alternation in declared order
(`total`, `amount due`, `balance`; their first letters differ so at most one
alternative applies at a position). -/
def scanTotalHere (s : List Char) : Option ℚ :=
  ["total", "amount due", "balance"].findSome? fun kw =>
    (stripLit kw s).bind (numAfterSep false)

/-- Scan-path tax pattern at one position (`tax`, `sales tax`). -/
def scanTaxHere (s : List Char) : Option ℚ :=
  ["tax", "sales tax"].findSome? fun kw =>
    (stripLit kw s).bind (numAfterSep false)

/-- `ReceiptProcessor._extract_totals`. -/
def ReceiptProcessor_extract_totals (text : String) : ℚ × ℚ :=
  let low := lowerS text.toList
  ((searchOpt scanTotalHere low).getD 0, (searchOpt scanTaxHere low).getD 0)

/-! ## Date extractor (`ReceiptProcessor._extract_date`) -/

/-- A calendar date; `datetime.now()` fallbacks are modelled as `none` at the
extractor level. -/
structure SimpleDate where
  year : Nat
  month : Nat
  day : Nat
deriving DecidableEq

/-- Candidates of a counted digit group `\d{n}` for the widths in `ns`, in
the greedy (descending-width) order the regex engine explores. -/
def digitsTakeCands (ns : List Nat) (s : List Char) : List (List Char × List Char) :=
  ns.filterMap fun n =>
    let ds := s.take n
    if ds.length = n && ds.all isDigitC then some (ds, s.drop n) else none

/-- Regex character class matching a dash or a slash. -/
def isDateSep (c : Char) : Bool := c = '-' || c = '/'

/-- First date pattern (one or two digits, dash-or-slash, one or two digits,
dash-or-slash, two to four digits) at one position; returns the matched
substring. -/
def datePat1Here (s : List Char) : Option (List Char) :=
  (digitsTakeCands [2, 1] s).findSome? fun d1 =>
    match d1.2 with
    | c1 :: r2 =>
      if isDateSep c1 then
        (digitsTakeCands [2, 1] r2).findSome? fun d2 =>
          match d2.2 with
          | c2 :: r4 =>
            if isDateSep c2 then
              (digitsTakeCands [4, 3, 2] r4).findSome? fun dY =>
                some (d1.1 ++ c1 :: d2.1 ++ c2 :: dY.1)
            else none
          | [] => none
      else none
    | [] => none

/-- Second date pattern (four digits, dash-or-slash, one or two digits,
dash-or-slash, one or two digits) at one position. -/
def datePat2Here (s : List Char) : Option (List Char) :=
  (digitsTakeCands [4] s).findSome? fun dY =>
    match dY.2 with
    | c1 :: r2 =>
      if isDateSep c1 then
        (digitsTakeCands [2, 1] r2).findSome? fun d1 =>
          match d1.2 with
          | c2 :: r4 =>
            if isDateSep c2 then
              (digitsTakeCands [2, 1] r4).findSome? fun d2 =>
                some (dY.1 ++ c1 :: d1.1 ++ c2 :: d2.1)
            else none
          | [] => none
      else none
    | [] => none

/-- The month-abbreviation alternation of the third date pattern, in its
declared order. -/
def monthAbbrevs : List String :=
  ["jan", "feb", "mar", "apr", "may", "jun", "jul", "aug", "sep", "oct", "nov", "dec"]

/-- Lowercase ASCII letter, regex `[a-z]` (the text is lowercased first). -/
def isLowerAlpha (c : Char) : Bool := 'a' ≤ c && c ≤ 'z'

/-- Pattern `(\d{1,2}\s+(?:jan|...|dec)[a-z]*\s+\d{2,4})` at one position. -/
def datePat3Here (s : List Char) : Option (List Char) :=
  (digitsTakeCands [2, 1] s).findSome? fun d1 =>
    match d1.2 with
    | c1 :: r1 =>
      if isWs c1 then
        let ws1 := c1 :: r1.takeWhile isWs
        let r2 := r1.dropWhile isWs
        monthAbbrevs.findSome? fun mo =>
          (stripLit mo r2).bind fun r3 =>
            let run := r3.takeWhile isLowerAlpha
            let r4 := r3.dropWhile isLowerAlpha
            match r4 with
            | c2 :: r5 =>
              if isWs c2 then
                let ws2 := c2 :: r5.takeWhile isWs
                let r6 := r5.dropWhile isWs
                (digitsTakeCands [4, 3, 2] r6).findSome? fun dY =>
                  some (d1.1 ++ ws1 ++ mo.toList ++ run ++ ws2 ++ dY.1)
              else none
            | [] => none
      else none
    | [] => none

/-- The ordered date-pattern list of `_extract_date`. -/
def datePatterns : List (List Char → Option (List Char)) :=
  [datePat1Here, datePat2Here, datePat3Here]

/-- `strptime` month-number regex `1[0-2]|0[1-9]|[1-9]`: candidate parses in
alternation order. -/
def mCands : List Char → List (Nat × List Char)
  | a :: b :: r =>
    (if a = '1' && ('0' ≤ b && b ≤ '2') then [(10 + (b.toNat - 48), r)] else []) ++
    (if a = '0' && ('1' ≤ b && b ≤ '9') then [(b.toNat - 48, r)] else []) ++
    (if '1' ≤ a && a ≤ '9' then [(a.toNat - 48, b :: r)] else [])
  | [a] => if '1' ≤ a && a ≤ '9' then [(a.toNat - 48, [])] else []
  | [] => []

/-- `strptime` day-number regex `3[0-1]|[1-2]\d|0[1-9]|[1-9]| [1-9]`. -/
def dCands : List Char → List (Nat × List Char)
  | a :: b :: r =>
    (if a = '3' && ('0' ≤ b && b ≤ '1') then [(30 + (b.toNat - 48), r)] else []) ++
    (if ('1' ≤ a && a ≤ '2') && isDigitC b then [((a.toNat - 48) * 10 + (b.toNat - 48), r)] else []) ++
    (if a = '0' && ('1' ≤ b && b ≤ '9') then [(b.toNat - 48, r)] else []) ++
    (if '1' ≤ a && a ≤ '9' then [(a.toNat - 48, b :: r)] else []) ++
    (if a = ' ' && ('1' ≤ b && b ≤ '9') then [(b.toNat - 48, r)] else [])
  | [a] => if '1' ≤ a && a ≤ '9' then [(a.toNat - 48, [])] else []
  | [] => []

/-- `strptime` `%Y`: exactly four digits. -/
def y4Parse (s : List Char) : Option (Nat × List Char) :=
  match digitsTakeCands [4] s with
  | [(ds, r)] => some (digitsToNat ds, r)
  | _ => none

/-- `strptime` `%y`: exactly two digits, mapped into 1969..2068. -/
def y2Parse (s : List Char) : Option (Nat × List Char) :=
  match digitsTakeCands [2] s with
  | [(ds, r)] =>
    let v := digitsToNat ds
    some (if v ≤ 68 then 2000 + v else 1900 + v, r)
  | _ => none

/-- Gregorian leap year, as `datetime` validates it. -/
def isLeap (y : Nat) : Bool := y % 4 = 0 && (y % 100 ≠ 0 || y % 400 = 0)

/-- Days in a month, as `datetime` validates it. -/
def daysInMonth (y m : Nat) : Nat :=
  if m = 2 then (if isLeap y then 29 else 28)
  else if m = 4 || m = 6 || m = 9 || m = 11 then 30
  else 31

/-- The `datetime(year, month, day)` constructor checks. -/
def mkValidDate (y m d : Nat) : Option SimpleDate :=
  if 1 ≤ y && y ≤ 9999 && 1 ≤ m && m ≤ 12 && 1 ≤ d && d ≤ daysInMonth y m
  then some ⟨y, m, d⟩ else none

/-- `strptime` with format `%m<sep>%d<sep>%Y`.  (For these formats the regex
alternations are deterministic - a shorter numeric alternative always leaves
a digit where the non-digit separator must match - so exhausting candidate
lists is equivalent to the engine's first match plus the full-consumption
check `strptime` performs afterwards.) -/
def parseMDY4 (sep : Char) (s : List Char) : Option SimpleDate :=
  (mCands s).findSome? fun mc =>
    match mc.2 with
    | c :: r2 =>
      if c = sep then
        (dCands r2).findSome? fun dc =>
          match dc.2 with
          | c2 :: r4 =>
            if c2 = sep then
              match y4Parse r4 with
              | some (y, r5) => if r5.isEmpty then mkValidDate y mc.1 dc.1 else none
              | none => none
            else none
          | [] => none
      else none
    | [] => none

/-- `strptime` with format `%m<sep>%d<sep>%y`. -/
def parseMDY2 (sep : Char) (s : List Char) : Option SimpleDate :=
  (mCands s).findSome? fun mc =>
    match mc.2 with
    | c :: r2 =>
      if c = sep then
        (dCands r2).findSome? fun dc =>
          match dc.2 with
          | c2 :: r4 =>
            if c2 = sep then
              match y2Parse r4 with
              | some (y, r5) => if r5.isEmpty then mkValidDate y mc.1 dc.1 else none
              | none => none
            else none
          | [] => none
      else none
    | [] => none

/-- `strptime` with format `%Y<sep>%m<sep>%d`. -/
def parseY4MD (sep : Char) (s : List Char) : Option SimpleDate :=
  match y4Parse s with
  | some (y, r1) =>
    match r1 with
    | c :: r2 =>
      if c = sep then
        (mCands r2).findSome? fun mc =>
          match mc.2 with
          | c2 :: r4 =>
            if c2 = sep then
              (dCands r4).findSome? fun dc =>
                if dc.2.isEmpty then mkValidDate y mc.1 dc.1 else none
            else none
          | [] => none
      else none
    | [] => none
  | none => none

/-- Month-name alternation of `%b` (`jan`..`dec` in calendar order) paired
with month numbers. -/
def monthAbbrevPairs : List (String × Nat) :=
  [("jan", 1), ("feb", 2), ("mar", 3), ("apr", 4), ("may", 5), ("jun", 6),
   ("jul", 7), ("aug", 8), ("sep", 9), ("oct", 10), ("nov", 11), ("dec", 12)]

/-- Month-name alternation of `%B`, in the longest-first order `strptime`
compiles (it sorts the names by length, descending). -/
def monthFullPairs : List (String × Nat) :=
  [("september", 9), ("february", 2), ("november", 11), ("december", 12),
   ("january", 1), ("october", 10), ("august", 8), ("march", 3),
   ("april", 4), ("june", 6), ("july", 7), ("may", 5)]

/-- `strptime` with format `%d %b %Y` / `%d %B %Y` (format whitespace is
compiled to `\s+`; the input is already lowercased). -/
def parseDMonY (names : List (String × Nat)) (s : List Char) : Option SimpleDate :=
  (dCands s).findSome? fun dc =>
    (wsPlus dc.2).bind fun r2 =>
      names.findSome? fun p =>
        (stripLit p.1 r2).bind fun r3 =>
          (wsPlus r3).bind fun r4 =>
            match y4Parse r4 with
            | some (y, r5) => if r5.isEmpty then mkValidDate y p.2 dc.1 else none
            | none => none

/-- The ordered `strptime` format list of `_extract_date`, applied to a
matched substring; first format that parses wins. -/
def tryParseDate (ds : List Char) : Option SimpleDate :=
  [parseMDY4 '/', parseMDY4 '-', parseMDY2 '/', parseMDY2 '-',
   parseY4MD '-', parseY4MD '/',
   parseDMonY monthAbbrevPairs, parseDMonY monthFullPairs].findSome? fun p => p ds

/-- `ReceiptProcessor._extract_date`: for each pattern in order, if it
matches the lowercased text, try the formats on the matched substring; the
loop falls through to the next pattern when no format parses.  `none` models
the `datetime.now()` fallback. -/
def ReceiptProcessor_extract_date (text : String) : Option SimpleDate :=
  let low := lowerS text.toList
  datePatterns.findSome? fun pat => (searchOpt pat low).bind tryParseDate

/-- The structured record returned by `ReceiptProcessor.parse_receipt_text`. -/
structure ScanReceipt where
  store_name : String
  purchase_date : Option SimpleDate
  items : List Item
  total_amount : ℚ
  tax_amount : ℚ
  raw_text : String
deriving DecidableEq

/-- `ReceiptProcessor.parse_receipt_text`. -/
def ReceiptProcessor_parse_receipt_text (text : String) : ScanReceipt :=
  let totals := ReceiptProcessor_extract_totals text
  { store_name := ReceiptProcessor_extract_store_name text
    purchase_date := ReceiptProcessor_extract_date text
    items := ReceiptProcessor_extract_items (parseLines text.toList)
    total_amount := totals.1
    tax_amount := totals.2
    raw_text := text }

/-! ## E-mail parser (`email_parser.py`) -/

/-- Skip-list of `EmailReceiptParser._extract_items_from_email`. -/
def emailSkipList : List String :=
  ["order summary", "subtotal", "total", "tax", "shipping", "delivery",
   "payment", "thank you", "questions", "customer service", "***", "---",
   "visit us", "follow us"]

/-- Tail of e-mail item pattern 1 after the lazy name group, at one
position: an optional group (an at-sign, optional whitespace, an optional
dollar sign, a unit price) followed by optional whitespace, an optional
dollar sign, optional whitespace and the total price; trailing characters
after the total are allowed (the pattern is unanchored). -/
def plainTail (s : List Char) : Option ℚ :=
  (parseNum ((stripDollar (s.dropWhile isWs)).dropWhile isWs)).map fun v => v.1

/-- See `plainTail`: the full optional-unit-price tail.  The optional group
is tried first (greedy `?`); on failure the engine retries without it. -/
def pat1Tail (s : List Char) : Option (Option ℚ × ℚ) :=
  match s with
  | '@' :: r =>
    (match parseNum (stripDollar (r.dropWhile isWs)) with
     | some (u, r3) =>
       match plainTail r3 with
       | some t => some (some u, t)
       | none => (plainTail s).map fun t => (none, t)
     | none => (plainTail s).map fun t => (none, t))
  | _ => (plainTail s).map fun t => (none, t)

/-- Lazy expansion of the name group `(.+?)`: names of length one, two, ...
are tried until the tail matches at the split point. -/
def pat1NameLoop : List Char → List Char → Option (List Char × Option ℚ × ℚ)
  | _, [] => none
  | nameRev, c :: rest =>
    match pat1Tail rest with
    | some (u, t) => some ((c :: nameRev).reverse, u, t)
    | none => pat1NameLoop (c :: nameRev) rest

/-- Backtracking of the greedy whitespace run before the name: once every
name inside `rest0` has failed, the engine shortens the run one character at
a time; each shorter run contributes exactly one split point that was not
tried before, with a single whitespace character as the name. -/
def pat1Phase2 (ws rest0 : List Char) : Option (List Char × Option ℚ × ℚ) :=
  ((List.range ws.length).map fun i => ws.length - 1 - i).findSome? fun w =>
    match ws.get? w with
    | some c => (pat1Tail (ws.drop (w + 1) ++ rest0)).map fun v => ([c], v.1, v.2)
    | none => none

/-- E-mail item pattern 1 (quantity, an `x`, lazy name, optional unit price,
total price) matched at one position; returns quantity digits value, the raw
name group, the optional unit price and the total price. -/
def pat1Here (s : List Char) : Option (Nat × List Char × Option ℚ × ℚ) :=
  match s.takeWhile isDigitC, s.dropWhile isDigitC with
  | [], _ => none
  | qds, rest =>
    match rest.dropWhile isWs with
    | c :: r2 =>
      if c = 'x' || c = 'X' then
        let ws := r2.takeWhile isWs
        let rest0 := r2.dropWhile isWs
        match pat1NameLoop [] rest0 with
        | some (n, u, t) => some (digitsToNat qds, n, u, t)
        | none => (pat1Phase2 ws rest0).map fun v => (digitsToNat qds, v.1, v.2.1, v.2.2)
      else none
    | [] => none

/-- `re.search` of e-mail pattern 1 over a line. -/
def pat1Search : List Char → Option (Nat × List Char × Option ℚ × ℚ)
  | [] => none
  | c :: rest =>
    match pat1Here (c :: rest) with
    | some r => some r
    | none => pat1Search rest

/-- Tail of e-mail item pattern 2 at a split point: at least two whitespace
characters, an optional dollar sign, optional whitespace, the price, then
only whitespace to the end of the line. -/
def pat2Tail (s : List Char) : Option ℚ :=
  if (s.takeWhile isWs).length ≥ 2 then
    match parseNum ((stripDollar (s.dropWhile isWs)).dropWhile isWs) with
    | some (v, r4) => if r4.all isWs then some v else none
    | none => none
  else none

/-- Lazy name expansion for pattern 2; a match starting later always extends
to a match starting at the head of the line, so `re.search` is the lazy scan
from position zero. -/
def pat2Loop : List Char → List Char → Option (List Char × ℚ)
  | _, [] => none
  | nameRev, c :: rest =>
    match pat2Tail rest with
    | some v => some ((c :: nameRev).reverse, v)
    | none => pat2Loop (c :: nameRev) rest

/-- E-mail item pattern 2 (name, column gap, trailing price). -/
def pat2Match (line : List Char) : Option (List Char × ℚ) := pat2Loop [] line

/-- `EmailReceiptParser._clean_item_name`: collapse whitespace, strip a
leading digit run with following whitespace, strip one trailing unit suffix,
strip, title-case. -/
def stripLeadingNum (s : List Char) : List Char :=
  match s with
  | c :: _ =>
    if isDigitC c then (s.dropWhile isDigitC).dropWhile isWs else s
  | [] => s

/-- The suffix alternation `(ea|each|lb|oz|kg|g)` in declared order. -/
def unitWords : List String := ["ea", "each", "lb", "oz", "kg", "g"]

/-- Case-insensitive literal prefix. -/
def isPrefixCI (w : String) (s : List Char) : Bool :=
  w.toList.isPrefixOf (lowerS (s.take w.toList.length))

/-- Whether the suffix pattern (optional whitespace, a unit word, optional
whitespace, end of string) matches the whole of `s`. -/
def unitSuffixHere (s : List Char) : Bool :=
  let t := s.dropWhile isWs
  unitWords.any fun w => isPrefixCI w t && (t.drop w.toList.length).all isWs

/-- Deletion of the leftmost end-anchored unit-suffix match: cut at the
first position from which the suffix pattern matches to the end. -/
def stripUnitSuffix : List Char → List Char
  | [] => []
  | c :: rest =>
    if unitSuffixHere (c :: rest) then [] else c :: stripUnitSuffix rest

/-- `EmailReceiptParser._clean_item_name`. -/
def EmailReceiptParser_clean_item_name (name : List Char) : String :=
  (titleS (strip (stripUnitSuffix (stripLeadingNum (collapseWs name))))).asString

/-- Per-line loop of `EmailReceiptParser._extract_items_from_email`, with
the reachable `ZeroDivisionError` surfaced through `Except`. -/
def emailExtractAux : List (List Char) → Except String (List Item)
  | [] => .ok []
  | l :: rest =>
    let line := strip l
    if line.length < 5 then emailExtractAux rest
    else if emailSkipList.any (fun sk => containsSub sk.toList (lowerS line)) then
      emailExtractAux rest
    else
      match pat1Search line with
      | some (q, nameRaw, unitOpt, total) =>
        let quantity : ℚ := (q : ℕ)
        let name := EmailReceiptParser_clean_item_name (strip nameRaw)
        let u0 : ℚ := unitOpt.getD 0
        if u0 = 0 then
          if quantity = 0 then .error "ZeroDivisionError"
          else
            (emailExtractAux rest).map fun items =>
              ⟨name, quantity, total / quantity, total⟩ :: items
        else
          (emailExtractAux rest).map fun items =>
            ⟨name, quantity, u0, total⟩ :: items
      | none =>
        match pat2Match line with
        | some (nameRaw, price) =>
          let name := strip nameRaw
          if name.length > 2 && price > 0 && price < 500 then
            (emailExtractAux rest).map fun items =>
              ⟨EmailReceiptParser_clean_item_name name, 1, price, price⟩ :: items
          else emailExtractAux rest
        | none => emailExtractAux rest

/-- `EmailReceiptParser._extract_items_from_email` (the `store_name`
argument is unused in the original too). -/
def EmailReceiptParser_extract_items_from_email (body : String) : Except String (List Item) :=
  emailExtractAux (splitLines body.toList)

/-- Store-pattern table of `EmailReceiptParser.__init__`. -/
def emailStorePatterns : List (String × (List Char → Bool)) := [
  ("walmart", fun low => containsSub "walmart".toList low || containsSub "wal-mart".toList low),
  ("amazon", containsSub "amazon".toList),
  ("kroger", containsSub "kroger".toList),
  ("target", containsSub "target".toList),
  ("instacart", containsSub "instacart".toList),
  ("whole foods", containsSeqWs "whole".toList "foods".toList),
  ("trader joe", containsSeqWs "trader".toList "joe".toList)]

/-- `EmailReceiptParser._identify_store` over the combined
`subject sender body` text. -/
def EmailReceiptParser_identify_store (body subject sender : String) : String :=
  findStoreName emailStorePatterns
    (lowerS (subject.toList ++ ' ' :: sender.toList ++ ' ' :: body.toList))

/-- E-mail total pattern 1: optional `order` prefix, `total`, separator run,
optional dollar, price; the optional prefix is tried first at a position and
the engine falls back to the bare literal. -/
def emailTotalP1Here (s : List Char) : Option ℚ :=
  let plain := (stripLit "total" s).bind (numAfterSep true)
  match (stripLit "order" s).bind wsPlus with
  | some r2 =>
    match (stripLit "total" r2).bind (numAfterSep true) with
    | some v => some v
    | none => plain
  | none => plain

/-- E-mail total pattern 2: `amount`, whitespace, `due` or `charged`,
separator run, optional dollar, price. -/
def emailTotalP2Here (s : List Char) : Option ℚ :=
  ((stripLit "amount" s).bind wsPlus).bind fun r =>
    (["due", "charged"].findSome? fun w => stripLit w r).bind (numAfterSep true)

/-- E-mail total pattern 3: `grand`, whitespace, `total`, separator run,
optional dollar, price. -/
def emailTotalP3Here (s : List Char) : Option ℚ :=
  (((stripLit "grand" s).bind wsPlus).bind (stripLit "total")).bind (numAfterSep true)

/-- E-mail tax pattern 1: optional `sales` prefix, `tax`, separator run,
optional dollar, price. -/
def emailTaxP1Here (s : List Char) : Option ℚ :=
  let plain := (stripLit "tax" s).bind (numAfterSep true)
  match (stripLit "sales" s).bind wsPlus with
  | some r2 =>
    match (stripLit "tax" r2).bind (numAfterSep true) with
    | some v => some v
    | none => plain
  | none => plain

/-- E-mail tax pattern 2: `estimated`, whitespace, `tax`, separator run,
optional dollar, price. -/
def emailTaxP2Here (s : List Char) : Option ℚ :=
  (((stripLit "estimated" s).bind wsPlus).bind (stripLit "tax")).bind (numAfterSep true)

/-- The ordered e-mail total patterns (the loop breaks at the first pattern
with any match). -/
def emailTotalPatterns : List (List Char → Option ℚ) :=
  [emailTotalP1Here, emailTotalP2Here, emailTotalP3Here]

/-- The ordered e-mail tax patterns. -/
def emailTaxPatterns : List (List Char → Option ℚ) :=
  [emailTaxP1Here, emailTaxP2Here]

/-- `EmailReceiptParser._extract_totals_from_email`. -/
def EmailReceiptParser_extract_totals_from_email (body : String) : ℚ × ℚ :=
  let low := lowerS body.toList
  ((emailTotalPatterns.findSome? fun h => searchOpt h low).getD 0,
   (emailTaxPatterns.findSome? fun h => searchOpt h low).getD 0)

/-! ## Helper lemmas -/

lemma mkPrice_nonneg (ds : List Char) (a b : Char) : 0 ≤ mkPrice ds a b := by
  unfold mkPrice
  positivity

lemma parseNum_nonneg {s : List Char} {v : ℚ} {r : List Char}
    (h : parseNum s = some (v, r)) : 0 ≤ v := by
  unfold parseNum at h
  split at h
  · exact absurd h (by simp)
  · split at h
    · split at h
      · exact (Prod.mk.injEq _ _ _ _ ▸ Option.some.injEq _ _ ▸ h).1 ▸ mkPrice_nonneg _ _ _
      · exact absurd h (by simp)
    · exact absurd h (by simp)

lemma qtyMatchHere_nonneg {s qds : List Char} {p : ℚ} {after : List Char}
    (h : qtyMatchHere s = some (qds, p, after)) : 0 ≤ p := by
  unfold qtyMatchHere at h
  split at h
  · exact absurd h (by simp)
  · split at h
    · split at h
      · rename_i heq
        simp only [Option.some.injEq, Prod.mk.injEq] at h
        exact h.2.1 ▸ parseNum_nonneg heq
      · exact absurd h (by simp)
    · exact absurd h (by simp)

lemma qtySearch_nonneg {s qds : List Char} {p : ℚ}
    (h : qtySearch s = some (qds, p)) : 0 ≤ p := by
  induction s with
  | nil => exact absurd h (by simp [qtySearch])
  | cons c rest ih =>
    unfold qtySearch at h
    split at h
    · rename_i heq
      cases h
      exact qtyMatchHere_nonneg heq
    · exact ih h

lemma priceMatchHere_nonneg {s : List Char} {v : ℚ}
    (h : priceMatchHere s = some v) : 0 ≤ v := by
  unfold priceMatchHere at h
  split at h
  · rename_i heq
    split at h
    · cases h
      exact parseNum_nonneg heq
    · exact absurd h (by simp)
  · exact absurd h (by simp)

lemma findTrailingPrice_nonneg {s : List Char} {v : ℚ} {pre : List Char}
    (h : findTrailingPrice s = some (v, pre)) : 0 ≤ v := by
  induction s generalizing pre with
  | nil => exact absurd h (by simp [findTrailingPrice])
  | cons c rest ih =>
    unfold findTrailingPrice at h
    split at h
    · rename_i heq
      cases h
      exact priceMatchHere_nonneg heq
    · split at h
      · rename_i heq
        cases h
        exact ih heq
      · exact absurd h (by simp)

lemma scanProcessLine_bounds {line : List Char} {item : Item}
    (h : scanProcessLine line = some item) :
    0 ≤ item.quantity ∧ 0 ≤ item.unit_price ∧ 0 ≤ item.total_price ∧
      item.total_price = item.quantity * item.unit_price := by
  unfold scanProcessLine at h
  dsimp only at h
  split at h
  · exact absurd h (by simp)
  · split at h
    · rename_i qds p heq
      split at h
      · cases h
        refine ⟨Nat.cast_nonneg _, qtySearch_nonneg heq, ?_, rfl⟩
        exact mul_nonneg (Nat.cast_nonneg _) (qtySearch_nonneg heq)
      · exact absurd h (by simp)
    · split at h
      · rename_i p pre heq
        split at h
        · cases h
          exact ⟨by norm_num, findTrailingPrice_nonneg heq, findTrailingPrice_nonneg heq,
            (one_mul _).symm⟩
        · exact absurd h (by simp)
      · exact absurd h (by simp)

lemma scan_items_bounds (lines : List (List Char)) :
    ∀ item ∈ ReceiptProcessor_extract_items lines,
      0 ≤ item.quantity ∧ 0 ≤ item.unit_price ∧ 0 ≤ item.total_price ∧
        item.total_price = item.quantity * item.unit_price := by
  intro item hmem
  unfold ReceiptProcessor_extract_items at hmem
  obtain ⟨l, _, hl⟩ := List.mem_filterMap.mp hmem
  exact scanProcessLine_bounds hl

lemma plainTail_nonneg {s : List Char} {t : ℚ} (h : plainTail s = some t) : 0 ≤ t := by
  unfold plainTail at h
  obtain ⟨⟨v, r⟩, hv, he⟩ := Option.map_eq_some'.mp h
  exact he ▸ parseNum_nonneg hv

lemma pat1Tail_bounds {s : List Char} {uo : Option ℚ} {t : ℚ}
    (h : pat1Tail s = some (uo, t)) :
    (∀ u, uo = some u → 0 ≤ u) ∧ 0 ≤ t := by
  unfold pat1Tail at h
  split at h
  · split at h
    · rename_i heqn
      split at h
      · rename_i heqt
        simp only [Option.some.injEq, Prod.mk.injEq] at h
        refine ⟨fun u hu => ?_, h.2 ▸ plainTail_nonneg heqt⟩
        rw [← h.1] at hu
        cases hu
        exact parseNum_nonneg heqn
      · obtain ⟨t', ht', he⟩ := Option.map_eq_some'.mp h
        simp only [Prod.mk.injEq] at he
        refine ⟨fun u hu => ?_, he.2 ▸ plainTail_nonneg ht'⟩
        rw [← he.1] at hu
        cases hu
    · obtain ⟨t', ht', he⟩ := Option.map_eq_some'.mp h
      simp only [Prod.mk.injEq] at he
      refine ⟨fun u hu => ?_, he.2 ▸ plainTail_nonneg ht'⟩
      rw [← he.1] at hu
      cases hu
  · obtain ⟨t', ht', he⟩ := Option.map_eq_some'.mp h
    simp only [Prod.mk.injEq] at he
    refine ⟨fun u hu => ?_, he.2 ▸ plainTail_nonneg ht'⟩
    rw [← he.1] at hu
    cases hu

lemma pat1NameLoop_bounds {acc s : List Char} {n : List Char} {uo : Option ℚ} {t : ℚ}
    (h : pat1NameLoop acc s = some (n, uo, t)) :
    (∀ u, uo = some u → 0 ≤ u) ∧ 0 ≤ t := by
  induction s generalizing acc with
  | nil => exact absurd h (by simp [pat1NameLoop])
  | cons c rest ih =>
    unfold pat1NameLoop at h
    split at h
    · rename_i heq
      simp only [Option.some.injEq, Prod.mk.injEq] at h
      exact h.2.1 ▸ h.2.2 ▸ pat1Tail_bounds heq
    · exact ih h

lemma pat1Phase2_bounds {ws rest0 : List Char} {n : List Char} {uo : Option ℚ} {t : ℚ}
    (h : pat1Phase2 ws rest0 = some (n, uo, t)) :
    (∀ u, uo = some u → 0 ≤ u) ∧ 0 ≤ t := by
  unfold pat1Phase2 at h
  obtain ⟨w, _, hw⟩ := List.exists_of_findSome?_eq_some h
  split at hw
  · obtain ⟨⟨uo', t'⟩, ht', he⟩ := Option.map_eq_some'.mp hw
    simp only [Prod.mk.injEq] at he
    exact he.2.1 ▸ he.2.2 ▸ pat1Tail_bounds ht'
  · exact absurd hw (by simp)

lemma pat1Here_bounds {s : List Char} {q : Nat} {n : List Char} {uo : Option ℚ} {t : ℚ}
    (h : pat1Here s = some (q, n, uo, t)) :
    (∀ u, uo = some u → 0 ≤ u) ∧ 0 ≤ t := by
  unfold pat1Here at h
  split at h
  · exact absurd h (by simp)
  · split at h
    · split at h
      · dsimp only at h
        split at h
        · rename_i heq
          simp only [Option.some.injEq, Prod.mk.injEq] at h
          exact h.2.2.1 ▸ h.2.2.2 ▸ pat1NameLoop_bounds heq
        · obtain ⟨⟨n', uo', t'⟩, ht', he⟩ := Option.map_eq_some'.mp h
          simp only [Prod.mk.injEq] at he
          exact he.2.2.1 ▸ he.2.2.2 ▸ pat1Phase2_bounds ht'
      · exact absurd h (by simp)
    · exact absurd h (by simp)

lemma pat1Search_bounds {s : List Char} {q : Nat} {n : List Char} {uo : Option ℚ} {t : ℚ}
    (h : pat1Search s = some (q, n, uo, t)) :
    (∀ u, uo = some u → 0 ≤ u) ∧ 0 ≤ t := by
  induction s with
  | nil => exact absurd h (by simp [pat1Search])
  | cons c rest ih =>
    unfold pat1Search at h
    split at h
    · rename_i heq
      cases h
      exact pat1Here_bounds heq
    · exact ih h

lemma pat2Tail_nonneg {s : List Char} {v : ℚ} (h : pat2Tail s = some v) : 0 ≤ v := by
  unfold pat2Tail at h
  split at h
  · split at h
    · rename_i heq
      split at h
      · cases h
        exact parseNum_nonneg heq
      · exact absurd h (by simp)
    · exact absurd h (by simp)
  · exact absurd h (by simp)

lemma pat2Loop_nonneg {acc s n : List Char} {v : ℚ}
    (h : pat2Loop acc s = some (n, v)) : 0 ≤ v := by
  induction s generalizing acc with
  | nil => exact absurd h (by simp [pat2Loop])
  | cons c rest ih =>
    unfold pat2Loop at h
    split at h
    · rename_i heq
      simp only [Option.some.injEq, Prod.mk.injEq] at h
      exact h.2 ▸ pat2Tail_nonneg heq
    · exact ih h

lemma exceptMap_ok {α : Type} {f : α → α} {e : Except String α} {r : α}
    (h : Except.map f e = .ok r) : ∃ l, e = .ok l ∧ r = f l := by
  cases e with
  | error s => simp [Except.map] at h
  | ok l => exact ⟨l, rfl, by simpa [Except.map] using h.symm⟩

/-- Combined invariant of the e-mail item loop: every emitted item has
non-negative fields, and whenever its unit price equals its total price
divided by its quantity (as on the derived-unit and trailing-price paths)
the product identity holds. -/
lemma emailExtractAux_inv {lines : List (List Char)} {items : List Item}
    (h : emailExtractAux lines = .ok items) :
    ∀ item ∈ items,
      (0 ≤ item.quantity ∧ 0 ≤ item.unit_price ∧ 0 ≤ item.total_price) ∧
      (item.unit_price = item.total_price / item.quantity →
        item.total_price = item.quantity * item.unit_price) := by
  induction lines generalizing items with
  | nil =>
    simp only [emailExtractAux] at h
    cases h
    intro item hmem
    exact absurd hmem (by simp)
  | cons l rest ih =>
    unfold emailExtractAux at h
    dsimp only at h
    split at h
    · exact ih h
    · split at h
      · exact ih h
      · split at h
        · split at h
          · -- derived unit price: unitOpt.getD 0 = 0
            split at h
            · exact absurd h (by simp)
            · rename_i q nameRaw unitOpt total hsearch hu0 hq
              obtain ⟨tail, htail, hcons⟩ := exceptMap_ok h
              subst hcons
              intro item hmem
              rcases List.mem_cons.mp hmem with hitem | hitem
              · subst hitem
                have htot := (pat1Search_bounds hsearch).2
                have hqn : (0:ℚ) ≤ (q : ℕ) := Nat.cast_nonneg _
                refine ⟨⟨hqn, div_nonneg htot hqn, htot⟩, fun _ => ?_⟩
                show (total : ℚ) = (q : ℕ) * (total / (q : ℕ))
                rw [mul_comm, div_mul_cancel₀ _ hq]
              · exact ih htail item hitem
          · -- explicitly captured unit price: unitOpt.getD 0 ≠ 0
            rename_i q nameRaw unitOpt total hsearch hu0
            obtain ⟨tail, htail, hcons⟩ := exceptMap_ok h
            subst hcons
            intro item hmem
            rcases List.mem_cons.mp hmem with hitem | hitem
            · subst hitem
              have hb := pat1Search_bounds hsearch
              have hu0n : 0 ≤ unitOpt.getD 0 := by
                cases unitOpt with
                | none => simp
                | some u => exact hb.1 u rfl
              refine ⟨⟨Nat.cast_nonneg _, hu0n, hb.2⟩, fun hcond => ?_⟩
              have hcond' : unitOpt.getD 0 = total / ((q : ℕ) : ℚ) := hcond
              by_cases hq : ((q : ℕ) : ℚ) = 0
              · exact absurd (by rw [hq, div_zero] at hcond'; exact hcond') hu0
              · show (total : ℚ) = ((q : ℕ) : ℚ) * unitOpt.getD 0
                rw [hcond', mul_comm, div_mul_cancel₀ _ hq]
            · exact ih htail item hitem
        · split at h
          · split at h
            · rename_i nameRaw price hsearch hpat2 hguard
              obtain ⟨tail, htail, hcons⟩ := exceptMap_ok h
              subst hcons
              intro item hmem
              rcases List.mem_cons.mp hmem with hitem | hitem
              · subst hitem
                have hp := pat2Loop_nonneg hpat2
                exact ⟨⟨by norm_num, hp, hp⟩, fun _ => (one_mul _).symm⟩
              · exact ih htail item hitem
            · exact ih h
          · exact ih h

/-- First-match precedence of the category loop: if the rule at index `i` is
not `Other` and has a matching keyword, and no earlier rule has any matching
keyword, the loop returns its name. -/
lemma categorizeAux_first {table : List CategoryRule} {low : List Char} {i : Nat}
    {c : CategoryRule} (hget : table.get? i = some c) (hname : c.name ≠ "Other")
    (hmatch : (c.keywords.any fun kw => wordMatch kw.toList low) = true)
    (hearlier : ((table.take i).all fun d =>
      !(d.keywords.any fun kw => wordMatch kw.toList low)) = true) :
    categorizeAux table low = c.name := by
  induction table generalizing i with
  | nil => exact absurd hget (by simp)
  | cons c0 rest ih =>
    cases i with
    | zero =>
      cases hget
      unfold categorizeAux
      rw [if_neg hname, if_pos hmatch]
    | succ j =>
      simp only [List.get?] at hget
      have h0 := (List.all_eq_true.mp hearlier c0 (by simp [List.take]))
      have hrest : ((rest.take j).all fun d =>
          !(d.keywords.any fun kw => wordMatch kw.toList low)) = true := by
        refine List.all_eq_true.mpr fun d hd => List.all_eq_true.mp hearlier d ?_
        simp only [List.take, List.mem_cons]
        exact Or.inr hd
      unfold categorizeAux
      split
      · exact ih hget hrest
      · rw [if_neg (by rw [Bool.not_eq_true' .. |>.mp h0] ; exact Bool.false_ne_true)]
        exact ih hget hrest

/-- The category loop falls through to `Other` when no rule has a matching
keyword. -/
lemma categorizeAux_none {table : List CategoryRule} {low : List Char}
    (h : (table.all fun d => !(d.keywords.any fun kw => wordMatch kw.toList low)) = true) :
    categorizeAux table low = "Other" := by
  induction table with
  | nil => rfl
  | cons c0 rest ih =>
    have h0 := List.all_eq_true.mp h c0 (by simp)
    have hrest : (rest.all fun d => !(d.keywords.any fun kw => wordMatch kw.toList low)) = true :=
      List.all_eq_true.mpr fun d hd => List.all_eq_true.mp h d (List.mem_cons_of_mem _ hd)
    unfold categorizeAux
    split
    · exact ih hrest
    · rw [if_neg (by rw [Bool.not_eq_true' .. |>.mp h0] ; exact Bool.false_ne_true)]
      exact ih hrest

/-- No keyword of the category table matches the empty name. -/
lemma no_keyword_matches_empty :
    (categories.all fun d => !(d.keywords.any fun kw => wordMatch kw.toList [])) = true := by
  decide

/-- First-match precedence of the shared store loop. -/
lemma findStoreName_first {pats : List (String × (List Char → Bool))} {low : List Char}
    {i : Nat} {p : String × (List Char → Bool)} (hget : pats.get? i = some p)
    (hmatch : p.2 low = true)
    (hearlier : ((pats.take i).map Prod.snd).all (fun m => !(m low)) = true) :
    findStoreName pats low = (titleS p.1.toList).asString := by
  induction pats generalizing i with
  | nil => exact absurd hget (by simp)
  | cons p0 rest ih =>
    cases i with
    | zero =>
      cases hget
      unfold findStoreName
      have hfind : List.find? (fun q => q.2 low) (p :: rest) = some p :=
        List.find?_cons_of_pos _ hmatch
      rw [hfind]
    | succ j =>
      simp only [List.get?] at hget
      have h0 := List.all_eq_true.mp hearlier (p0.2) (by simp [List.take])
      have hrest : ((rest.take j).map Prod.snd).all (fun m => !(m low)) = true := by
        refine List.all_eq_true.mpr fun m hm => List.all_eq_true.mp hearlier m ?_
        simp only [List.take, List.map_cons, List.mem_cons]
        exact Or.inr hm
      have := ih hget hrest
      unfold findStoreName at this ⊢
      have hfind : List.find? (fun q => q.2 low) (p0 :: rest) = List.find? (fun q => q.2 low) rest :=
        List.find?_cons_of_neg _ (by rw [Bool.not_eq_true' .. |>.mp h0] ; exact Bool.false_ne_true)
      rwa [hfind]

/-- The store loop returns the sentinel when no pattern matches. -/
lemma findStoreName_none {pats : List (String × (List Char → Bool))} {low : List Char}
    (h : (pats.map Prod.snd).all (fun m => !(m low)) = true) :
    findStoreName pats low = "Unknown Store" := by
  unfold findStoreName
  rw [List.find?_eq_none.mpr]
  intro x hx
  have := List.all_eq_true.mp h x.2 (List.mem_map_of_mem Prod.snd hx)
  simp only [Bool.not_eq_true'] at this
  simp [this]

/-- A line on which neither item pattern fires produces no item (whether or
not the noise filter discards it). -/
lemma scanProcessLine_none {line : List Char}
    (hq : qtySearch line = none) (hp : findTrailingPrice line = none) :
    scanProcessLine line = none := by
  unfold scanProcessLine
  split
  · rfl
  · rw [hq, hp]

/-- The demonstration scan document of the specification. -/
def demoText : String := "BANANAS  1.99\nMILK 2 @ 3.99  7.98\nTOTAL  9.97"

attribute [local semireducible] Rat.mul Rat.inv Rat.add Rat.sub

/-! ## Claims -/

/-- C1, counterexample: on the three-line scan document the pipeline does
not emit the two ItemRecords the claim describes — the noise filter does
discard the third line, but the second item keeps the stripped total in its
name (`Milk 798`) and `Bananas` does not word-match the keyword `banana`,
so its category is `Other`, not `Produce`. -/
theorem C1_counterexample :
    categorizeItems (ReceiptProcessor_extract_items (parseLines demoText.toList)) ≠
      [⟨"Bananas", 1, 199/100, 199/100, "Produce"⟩,
       ⟨"Milk", 2, 399/100, 798/100, "Dairy & Eggs"⟩] := by
  decide

/-- C1, amended: the extractor discards the `TOTAL` line and emits exactly
two records in line order, `Bananas / 1.0 / 1.99 / 1.99 / Other` and
`Milk 798 / 2.0 / 3.99 / 7.98 / Dairy & Eggs`; the totals extractor over the
full text returns 9.97. -/
theorem C1_end_to_end :
    categorizeItems (ReceiptProcessor_extract_items (parseLines demoText.toList)) =
      [⟨"Bananas", 1, 199/100, 199/100, "Other"⟩,
       ⟨"Milk 798", 2, 399/100, 798/100, "Dairy & Eggs"⟩] ∧
    (ReceiptProcessor_extract_totals demoText).1 = 997/100 := by
  constructor
  · decide
  · decide

/-- Specialisation of the precedence lemma: a name word-matching the phrase
`ice cream` with no keyword hit in the two earlier categories is classified
`Dairy & Eggs` (where `ice cream` is declared), not `Frozen`. -/
lemma categorize_ice_cream (name : String)
    (hice : wordMatch "ice cream".toList (lowerS name.toList) = true)
    (hearly : ((categories.take 2).all fun d =>
      !(d.keywords.any fun kw => wordMatch kw.toList (lowerS name.toList))) = true) :
    ItemCategorizer_categorize_item name = "Dairy & Eggs" := by
  have hne : name ≠ "" := by
    intro he
    subst he
    have : wordMatch "ice cream".toList (lowerS "".toList) = false := by decide
    rw [this] at hice
    cases hice
  unfold ItemCategorizer_categorize_item
  rw [if_neg hne]
  exact categorizeAux_first (i := 2)
    (c := ⟨"Dairy & Eggs",
      ["milk", "cheese", "yogurt", "butter", "cream", "egg",
       "sour cream", "cottage", "cheddar", "mozzarella", "parmesan",
       "ice cream", "whipped", "half and half", "dairy"], "#FFF9C4"⟩)
    rfl (by decide)
    (List.any_eq_true.mpr ⟨"ice cream", by decide, hice⟩) hearly

/-- C2: the classifier lowercases the name and scans the non-`Other`
categories in declared order; the first category with a word-boundary
keyword hit wins; `Other` is returned exactly when no keyword of any
category matches; overlap (e.g. `ice cream`, declared both under
`Dairy & Eggs` and `Frozen`) resolves to the earlier category. -/
theorem C2_classifier_precedence :
    (∀ (name : String) (i : Nat) (c : CategoryRule),
      categories.get? i = some c → c.name ≠ "Other" →
      (c.keywords.any fun kw => wordMatch kw.toList (lowerS name.toList)) = true →
      ((categories.take i).all fun d =>
        !(d.keywords.any fun kw => wordMatch kw.toList (lowerS name.toList))) = true →
      ItemCategorizer_categorize_item name = c.name)
    ∧ (∀ name : String,
      (categories.all fun d =>
        !(d.keywords.any fun kw => wordMatch kw.toList (lowerS name.toList))) = true →
      ItemCategorizer_categorize_item name = "Other")
    ∧ (∀ name : String,
      wordMatch "ice cream".toList (lowerS name.toList) = true →
      ((categories.take 2).all fun d =>
        !(d.keywords.any fun kw => wordMatch kw.toList (lowerS name.toList))) = true →
      ItemCategorizer_categorize_item name = "Dairy & Eggs") := by
  refine ⟨?_, ?_, categorize_ice_cream⟩
  · intro name i c hget hname hmatch hearlier
    by_cases hne : name = ""
    · exfalso
      subst hne
      have hall : (c.keywords.any fun kw => wordMatch kw.toList (lowerS "".toList)) = false :=
        Bool.not_eq_true' .. |>.mp
          (List.all_eq_true.mp no_keyword_matches_empty c (List.get?_mem hget))
      rw [hall] at hmatch
      cases hmatch
    · unfold ItemCategorizer_categorize_item
      rw [if_neg hne]
      exact categorizeAux_first hget hname hmatch hearlier
  · intro name h
    by_cases hne : name = ""
    · unfold ItemCategorizer_categorize_item
      rw [if_pos hne]
    · unfold ItemCategorizer_categorize_item
      rw [if_neg hne]
      exact categorizeAux_none h

/-- Witness for C2 at concrete names: `Frozen Pizza` hits `Frozen` first,
`Unbranded Widget` matches nothing, `Ice Cream Sandwich` resolves to
`Dairy & Eggs` by declaration order. -/
theorem C2_classifier_precedence_witness :
    ItemCategorizer_categorize_item "Frozen Pizza" = "Frozen" ∧
    ItemCategorizer_categorize_item "Unbranded Widget" = "Other" ∧
    ItemCategorizer_categorize_item "Ice Cream Sandwich" = "Dairy & Eggs" :=
  ⟨C2_classifier_precedence.1 "Frozen Pizza" 6
      ⟨"Frozen", ["frozen", "ice", "pizza", "freezer", "popsicle", "ice cream"], "#B3E5FC"⟩
      (by decide) (by decide) (by decide) (by decide),
   C2_classifier_precedence.2.1 "Unbranded Widget" (by decide),
   C2_classifier_precedence.2.2 "Ice Cream Sandwich" (by decide) (by decide)⟩

/-- C3, counterexample: on the e-mail path, the line
`2 x Milk @ $3.99 $100.00` matches the explicit-quantity pattern with an
explicitly captured unit price, and the emitted record has
`totalPrice = 100.00 ≠ 2 * 3.99`. -/
theorem C3_counterexample :
    EmailReceiptParser_extract_items_from_email "2 x Milk @ $3.99 $100.00" =
      Except.ok [⟨"Milk", 2, 399/100, 100⟩] ∧
    ¬ ((100 : ℚ) = 2 * (399/100)) :=
  ⟨rfl, by decide⟩

/-- C3, amended: on the scan path every emitted item satisfies
`totalPrice = quantity * unitPrice` (the explicit-quantity branch computes
the product, the trailing-price branch sets quantity 1); the claimed `MILK`
line example holds; on the e-mail path the identity holds whenever the unit
price equals `totalPrice / quantity` - i.e. whenever it was derived rather
than captured independently of the total. -/
theorem C3_total_product :
    (∀ lines : List (List Char), ∀ item ∈ ReceiptProcessor_extract_items lines,
      item.total_price = item.quantity * item.unit_price)
    ∧ ReceiptProcessor_extract_items (parseLines "MILK 2 @ 3.99  7.98".toList) =
        [⟨"Milk 798", 2, 399/100, 798/100⟩]
    ∧ (∀ (body : String) (items : List Item),
        EmailReceiptParser_extract_items_from_email body = .ok items →
        ∀ item ∈ items, item.unit_price = item.total_price / item.quantity →
          item.total_price = item.quantity * item.unit_price) := by
  refine ⟨fun lines item hmem => (scan_items_bounds lines item hmem).2.2.2, by decide, ?_⟩
  intro body items h item hmem hcond
  exact (emailExtractAux_inv h item hmem).2 hcond

/-- Witness for C3 on the specification's own `MILK` line. -/
theorem C3_total_product_witness :
    (⟨"Milk 798", 2, 399/100, 798/100⟩ : Item).total_price =
      (⟨"Milk 798", 2, 399/100, 798/100⟩ : Item).quantity *
        (⟨"Milk 798", 2, 399/100, 798/100⟩ : Item).unit_price :=
  C3_total_product.1 (parseLines "MILK 2 @ 3.99  7.98".toList)
    ⟨"Milk 798", 2, 399/100, 798/100⟩ (by decide)

/-- C4: the e-mail line-item extractor is not total - on the line
`0 x Milk 15.00` the explicit-quantity pattern captures quantity `0` with no
unit price, and the derivation `unit_price = total_price / quantity` raises
`ZeroDivisionError` (modelled as the `Except.error` outcome). -/
theorem C4_email_zero_division :
    EmailReceiptParser_extract_items_from_email "0 x Milk 15.00" =
      Except.error "ZeroDivisionError" := rfl

/-- C5, counterexample: the two name normalizers are different functions -
on `123 apple` the scan-path cleaner keeps the leading code (`123 Apple`)
while the e-mail cleaner strips it (`Apple`). -/
theorem C5_counterexample :
    ReceiptProcessor_clean_item_name "123 apple".toList ≠
      EmailReceiptParser_clean_item_name "123 apple".toList := by
  decide

/-- C5, amended: both normalizers collapse whitespace, trim, title-case,
never fail and send the empty string to the empty string, but they differ:
only the e-mail normalizer strips a leading numeric token and a trailing
unit suffix, and only the scan normalizer deletes special characters. -/
theorem C5_normalizers :
    ReceiptProcessor_clean_item_name "".toList = "" ∧
    EmailReceiptParser_clean_item_name "".toList = "" ∧
    ReceiptProcessor_clean_item_name "123 apple".toList = "123 Apple" ∧
    EmailReceiptParser_clean_item_name "123 apple".toList = "Apple" ∧
    EmailReceiptParser_clean_item_name "MILK   2 LB".toList = "Milk 2" ∧
    ReceiptProcessor_clean_item_name "a.b".toList = "Ab" ∧
    EmailReceiptParser_clean_item_name "a.b".toList = "A.B" :=
  ⟨by decide, by decide, by decide, by decide, by decide, by decide, by decide⟩

/-- C6, counterexample: the scan-path total family is
`total | amount due | balance`, not `total / amount due|charged / grand
total` - on `amount charged 12.34` the scan extractor finds nothing and
returns the 0.0 default instead of 12.34. -/
theorem C6_counterexample :
    (ReceiptProcessor_extract_totals "amount charged 12.34").1 = 0 ∧
    (0 : ℚ) ≠ 1234/100 :=
  ⟨by decide, by decide⟩

/-- C6, amended: both extractors search the whole lowercased text; the scan
path uses one alternation `total|amount due|balance` (first occurrence in
document order) and `tax|sales tax`; the e-mail path tries its patterns
(`[order] total`, `amount due|charged`, `grand total`) in pattern-priority
order, so an earlier-in-document `amount due` loses to a later `total`;
a family with no match yields 0.0. -/
theorem C6_totals :
    ReceiptProcessor_extract_totals "TOTAL: $45.67" = (4567/100, 0)
    ∧ ReceiptProcessor_extract_totals "BALANCE 12.34" = (1234/100, 0)
    ∧ ReceiptProcessor_extract_totals "amount charged 12.34" = (0, 0)
    ∧ EmailReceiptParser_extract_totals_from_email "TOTAL: $45.67" = (4567/100, 0)
    ∧ EmailReceiptParser_extract_totals_from_email "amount due: 5.00\ntotal: 7.00" = (7, 0)
    ∧ EmailReceiptParser_extract_totals_from_email "amount charged: 3.00" = (3, 0)
    ∧ (∀ text : String, searchOpt scanTotalHere (lowerS text.toList) = none →
        (ReceiptProcessor_extract_totals text).1 = 0)
    ∧ (∀ text : String, searchOpt scanTaxHere (lowerS text.toList) = none →
        (ReceiptProcessor_extract_totals text).2 = 0)
    ∧ (∀ body : String,
        (emailTotalPatterns.findSome? fun h => searchOpt h (lowerS body.toList)) = none →
        (EmailReceiptParser_extract_totals_from_email body).1 = 0)
    ∧ (∀ body : String,
        (emailTaxPatterns.findSome? fun h => searchOpt h (lowerS body.toList)) = none →
        (EmailReceiptParser_extract_totals_from_email body).2 = 0) := by
  refine ⟨by decide, by decide, by decide, by decide, by decide, by decide, ?_, ?_, ?_, ?_⟩
  · intro text h
    show ((searchOpt scanTotalHere (lowerS text.toList)).getD 0, _).1 = 0
    rw [h]
    rfl
  · intro text h
    show (_, (searchOpt scanTaxHere (lowerS text.toList)).getD 0).2 = 0
    rw [h]
    rfl
  · intro body h
    show ((emailTotalPatterns.findSome? fun h => searchOpt h (lowerS body.toList)).getD 0, _).1 = 0
    rw [h]
    rfl
  · intro body h
    show (_, (emailTaxPatterns.findSome? fun h => searchOpt h (lowerS body.toList)).getD 0).2 = 0
    rw [h]
    rfl

/-- Witness for C6: text matching no total and no tax pattern yields the
0.0 defaults in both extractors. -/
theorem C6_totals_witness :
    (ReceiptProcessor_extract_totals "nothing of note").1 = 0 ∧
    (ReceiptProcessor_extract_totals "nothing of note").2 = 0 ∧
    (EmailReceiptParser_extract_totals_from_email "nothing of note").1 = 0 ∧
    (EmailReceiptParser_extract_totals_from_email "nothing of note").2 = 0 :=
  ⟨C6_totals.2.2.2.2.2.2.1 "nothing of note" (by decide),
   C6_totals.2.2.2.2.2.2.2.1 "nothing of note" (by decide),
   C6_totals.2.2.2.2.2.2.2.2.1 "nothing of note" (by decide),
   C6_totals.2.2.2.2.2.2.2.2.2 "nothing of note" (by decide)⟩

/-- C7, counterexample: the scan line `SODA 0 @ 3.99` matches the
explicit-quantity pattern with quantity digits `0`, and the extractor emits
an ItemRecord with quantity 0 - not strictly positive. -/
theorem C7_counterexample :
    ReceiptProcessor_extract_items (parseLines "SODA 0 @ 3.99".toList) =
      [⟨"Soda", 0, 399/100, 0⟩] ∧
    ¬ (∀ item ∈ ReceiptProcessor_extract_items (parseLines "SODA 0 @ 3.99".toList),
        0 < item.quantity) := by
  refine ⟨by decide, fun h => ?_⟩
  have := h ⟨"Soda", 0, 399/100, 0⟩ (by decide)
  exact absurd this (by norm_num)

/-- C7, amended: every emitted ItemRecord of either path has non-negative
quantity, unit price and total price (the trailing-price path uses quantity
1.0), but the explicit-quantity pattern can parse a quantity of 0, so strict
positivity of the quantity fails. -/
theorem C7_item_bounds :
    (∀ lines : List (List Char), ∀ item ∈ ReceiptProcessor_extract_items lines,
      0 ≤ item.quantity ∧ 0 ≤ item.unit_price ∧ 0 ≤ item.total_price)
    ∧ (∀ (body : String) (items : List Item),
        EmailReceiptParser_extract_items_from_email body = .ok items →
        ∀ item ∈ items,
          0 ≤ item.quantity ∧ 0 ≤ item.unit_price ∧ 0 ≤ item.total_price) := by
  refine ⟨fun lines item hmem => ?_,
          fun body items h item hmem => (emailExtractAux_inv h item hmem).1⟩
  have hb := scan_items_bounds lines item hmem
  exact ⟨hb.1, hb.2.1, hb.2.2.1⟩

/-- Witness for C7 on one scan line and one e-mail body. -/
theorem C7_item_bounds_witness :
    (0 ≤ (⟨"Bananas", 1, 199/100, 199/100⟩ : Item).quantity ∧
      0 ≤ (⟨"Bananas", 1, 199/100, 199/100⟩ : Item).unit_price ∧
      0 ≤ (⟨"Bananas", 1, 199/100, 199/100⟩ : Item).total_price) ∧
    (0 ≤ (⟨"Organic Apples", 1, 499/100, 499/100⟩ : Item).quantity ∧
      0 ≤ (⟨"Organic Apples", 1, 499/100, 499/100⟩ : Item).unit_price ∧
      0 ≤ (⟨"Organic Apples", 1, 499/100, 499/100⟩ : Item).total_price) :=
  ⟨C7_item_bounds.1 ["BANANAS  1.99".toList] ⟨"Bananas", 1, 199/100, 199/100⟩ (by decide),
   C7_item_bounds.2 "Organic Apples   $4.99" [⟨"Organic Apples", 1, 499/100, 499/100⟩]
     rfl ⟨"Organic Apples", 1, 499/100, 499/100⟩ (by decide)⟩

/-- C8, counterexample: on `99/99/99 then 2024-01-15` the first date
pattern is the first to match (substring `99/99/99`), that substring parses
under none of the formats, yet the extractor does not fall back to the
current time - it falls through to the second pattern and returns
2024-01-15. -/
theorem C8_counterexample :
    searchOpt datePat1Here (lowerS "99/99/99 then 2024-01-15".toList) =
      some "99/99/99".toList ∧
    tryParseDate "99/99/99".toList = none ∧
    ReceiptProcessor_extract_date "99/99/99 then 2024-01-15" = some ⟨2024, 1, 15⟩ :=
  ⟨by decide, by decide, by decide⟩

/-- C8, amended: the extractor tries the ordered patterns against the
lowercased text and, for each pattern that matches, the ordered formats on
the matched substring, returning the first successful parse; when a matching
pattern's substring parses under no format it falls through to the next
pattern, and the current-time fallback (modelled `none`) is reached only
when no pattern yields a parse; `01/15/2024` parses to 2024-01-15. -/
theorem C8_date_extractor :
    ReceiptProcessor_extract_date "purchased 01/15/2024 receipt" = some ⟨2024, 1, 15⟩
    ∧ ReceiptProcessor_extract_date "99/99/99 then 2024-01-15" = some ⟨2024, 1, 15⟩
    ∧ (∀ text : String,
        (datePatterns.all fun pat => (searchOpt pat (lowerS text.toList)).isNone) = true →
        ReceiptProcessor_extract_date text = none)
    ∧ (∀ text : String,
        (datePatterns.all fun pat =>
          ((searchOpt pat (lowerS text.toList)).bind tryParseDate).isNone) = true →
        ReceiptProcessor_extract_date text = none) := by
  refine ⟨by decide, by decide, ?_, ?_⟩
  · intro text h
    show (datePatterns.findSome? fun pat =>
      (searchOpt pat (lowerS text.toList)).bind tryParseDate) = none
    refine List.findSome?_eq_none_iff.mpr fun pat hp => ?_
    rw [Option.isNone_iff_eq_none.mp (List.all_eq_true.mp h pat hp)]
    rfl
  · intro text h
    show (datePatterns.findSome? fun pat =>
      (searchOpt pat (lowerS text.toList)).bind tryParseDate) = none
    exact List.findSome?_eq_none_iff.mpr fun pat hp =>
      Option.isNone_iff_eq_none.mp (List.all_eq_true.mp h pat hp)

/-- Witness for C8: text with no date-shaped substring falls back. -/
theorem C8_date_extractor_witness :
    ReceiptProcessor_extract_date "no digits at all" = none :=
  C8_date_extractor.2.2.1 "no digits at all" (by decide)

/-- C9: on input whose lowercasing matches no store pattern, whose lines
match neither item pattern, and which contains no total- or tax-shaped
match, the scan parser returns the defaults: `Unknown Store`, no items, 0.0
total, 0.0 tax (and it is total - no exception is modelled anywhere in the
scan path). -/
theorem C9_noise_defaults :
    ∀ text : String,
      ((scanStorePatterns.map Prod.snd).all fun m => !(m (lowerS text.toList))) = true →
      ((parseLines text.toList).all fun line =>
        (qtySearch line).isNone && (findTrailingPrice line).isNone) = true →
      (searchOpt scanTotalHere (lowerS text.toList)).isNone = true →
      (searchOpt scanTaxHere (lowerS text.toList)).isNone = true →
      (ReceiptProcessor_parse_receipt_text text).store_name = "Unknown Store" ∧
      (ReceiptProcessor_parse_receipt_text text).items = [] ∧
      (ReceiptProcessor_parse_receipt_text text).total_amount = 0 ∧
      (ReceiptProcessor_parse_receipt_text text).tax_amount = 0 := by
  intro text hstore hitems htot htax
  refine ⟨findStoreName_none hstore, ?_, ?_, ?_⟩
  · show ReceiptProcessor_extract_items (parseLines text.toList) = []
    refine List.filterMap_eq_nil_iff.mpr fun line hline => ?_
    have hb := List.all_eq_true.mp hitems line hline
    simp only [Bool.and_eq_true, Option.isNone_iff_eq_none] at hb
    exact scanProcessLine_none hb.1 hb.2
  · show ((searchOpt scanTotalHere (lowerS text.toList)).getD 0 : ℚ) = 0
    rw [Option.isNone_iff_eq_none.mp htot]
    rfl
  · show ((searchOpt scanTaxHere (lowerS text.toList)).getD 0 : ℚ) = 0
    rw [Option.isNone_iff_eq_none.mp htax]
    rfl

/-- Witness for C9: the empty document. -/
theorem C9_noise_defaults_witness :
    (ReceiptProcessor_parse_receipt_text "").store_name = "Unknown Store" ∧
    (ReceiptProcessor_parse_receipt_text "").items = [] ∧
    (ReceiptProcessor_parse_receipt_text "").total_amount = 0 ∧
    (ReceiptProcessor_parse_receipt_text "").tax_amount = 0 :=
  C9_noise_defaults "" (by decide) (by decide) (by decide) (by decide)

/-- C10: both store identifiers scan their ordered pattern table over the
lowercased (combined) text, return the title-cased name of the first
matching pattern, return `Unknown Store` when nothing matches, and are
total; `WALMART SUPERCENTER #123` identifies as `Walmart`. -/
theorem C10_store_identifier :
    (∀ (text : String) (i : Nat) (p : String × (List Char → Bool)),
      scanStorePatterns.get? i = some p → p.2 (lowerS text.toList) = true →
      ((scanStorePatterns.take i).map Prod.snd).all
        (fun m => !(m (lowerS text.toList))) = true →
      ReceiptProcessor_extract_store_name text = (titleS p.1.toList).asString)
    ∧ (∀ text : String,
      ((scanStorePatterns.map Prod.snd).all fun m => !(m (lowerS text.toList))) = true →
      ReceiptProcessor_extract_store_name text = "Unknown Store")
    ∧ (∀ (body subject sender : String) (i : Nat) (p : String × (List Char → Bool)),
      emailStorePatterns.get? i = some p →
      p.2 (lowerS (subject.toList ++ ' ' :: sender.toList ++ ' ' :: body.toList)) = true →
      ((emailStorePatterns.take i).map Prod.snd).all
        (fun m => !(m (lowerS (subject.toList ++ ' ' :: sender.toList ++ ' ' :: body.toList)))) = true →
      EmailReceiptParser_identify_store body subject sender = (titleS p.1.toList).asString)
    ∧ (∀ body subject sender : String,
      ((emailStorePatterns.map Prod.snd).all
        (fun m => !(m (lowerS (subject.toList ++ ' ' :: sender.toList ++ ' ' :: body.toList))))) = true →
      EmailReceiptParser_identify_store body subject sender = "Unknown Store")
    ∧ ReceiptProcessor_extract_store_name "WALMART SUPERCENTER #123" = "Walmart" :=
  ⟨fun _ _ _ hget hm he => findStoreName_first hget hm he,
   fun _ h => findStoreName_none h,
   fun _ _ _ _ _ hget hm he => findStoreName_first hget hm he,
   fun _ _ _ h => findStoreName_none h,
   by decide⟩

/-- Witness for C10: first-match precedence and the sentinel on concrete
inputs for both paths. -/
theorem C10_store_identifier_witness :
    ReceiptProcessor_extract_store_name "Wal-Mart Neighborhood Market" = "Walmart" ∧
    ReceiptProcessor_extract_store_name "corner deli" = "Unknown Store" ∧
    EmailReceiptParser_identify_store "your receipt" "Trader  Joes order" "x@y.com" = "Trader Joe" ∧
    EmailReceiptParser_identify_store "plain body" "plain subject" "someone" = "Unknown Store" :=
  ⟨C10_store_identifier.1 "Wal-Mart Neighborhood Market" 0
      ("walmart", fun low => containsSub "walmart".toList low || containsSub "wal-mart".toList low)
      rfl (by decide) (by decide),
   C10_store_identifier.2.1 "corner deli" (by decide),
   C10_store_identifier.2.2.1 "your receipt" "Trader  Joes order" "x@y.com" 6
      ("trader joe", containsSeqWs "trader".toList "joe".toList)
      rfl (by decide) (by decide),
   C10_store_identifier.2.2.2.1 "plain body" "plain subject" "someone" (by decide)⟩
